import Mathlib

/-!
Shallow embedding of the inventory / sale / purchase / return / loyalty core of
the business-management backend (NestJS + Prisma services), translated from:
  src/sale/sale.service.ts            (SaleService)
  src/purchase/purchase.service.ts    (PurchaseService)
  src/saleReturn/sale-return.service.ts (SaleReturnService)
  src/customerLoyalty/customer-loyalty.service.ts (CustomerLoyaltyService)
  prisma migrations (table shapes, enum defaults, unique keys)

Modelling conventions:
  * Monetary amounts (unitPrice, totals, refunds, points) are JS numbers in the
    source; they are modelled as Int.  Stock quantities are Int because Prisma
    increment/decrement can drive them negative.  Line-item quantities are Nat
    (the DTO layer enforces quantity >= 1 via class-validator Min(1)).
  * Each Prisma table is a list of records inside one DB value; findUnique is
    List.find?, update is a key-guarded List.map, upsert branches on find?.
  * A service method is a function DB -> Except Err (result x DB); a thrown
    Nest exception is Except.error, and a Prisma $transaction rollback is
    modelled by the caller keeping the original DB on error.
  * Code that is commented out in the source (saleItems creation inside
    SaleService.create, every inventoryLog.create, purchaseItems creation
    inside PurchaseService.create, loyaltyTransaction.create) is NOT modelled
    as executing: the model does exactly what the live code does.
-/

/-- Stock row: one on-hand quantity per (productId, branchId); the migration
puts a unique index on that pair.  Quantity is Int: Prisma decrement has no
floor, so the column can go negative. -/
structure StockRec where
  productId : Nat
  branchId : Nat
  quantity : Int
  deriving DecidableEq

/-- Sale status enum from the source strings 'COMPLETED' / 'PARTIAL' /
'PENDING' / 'CANCELLED' written by SaleService.  The checked-in migration SQL
defines SaleStatus as ('completed','pending','cancelled') without a partial
value; schema.prisma itself is not in the repository, so the accepted value
set is modelled from the spec (status ∈ {pending, partial, completed,
cancelled}), which is what the service code writes. -/
inductive SaleStatus where
  | COMPLETED
  | PARTIAL
  | PENDING
  | CANCELLED
  deriving DecidableEq

/-- Sale header row (table sales).  Default status is COMPLETED per the
migration (DEFAULT 'completed'). -/
structure SaleRec where
  id : Nat
  branchId : Nat
  customerId : Option Nat
  invoiceNo : String
  totalAmount : Int
  discount : Int
  tax : Int
  grandTotal : Int
  paidAmount : Int
  dueAmount : Int
  status : SaleStatus
  deriving DecidableEq

/-- Sale line-item row (table sale_items). -/
structure SaleItemRec where
  id : Nat
  saleId : Nat
  productId : Nat
  quantity : Nat
  unitPrice : Int
  subtotal : Int
  deriving DecidableEq

/-- Sale-return status enum (pending/approved/rejected), default pending. -/
inductive ReturnStatus where
  | PENDING
  | APPROVED
  | REJECTED
  deriving DecidableEq

/-- Sale-return row (table sale_returns). -/
structure SaleReturnRec where
  id : Nat
  saleId : Nat
  productId : Nat
  quantity : Nat
  refundAmount : Int
  status : ReturnStatus
  deriving DecidableEq

/-- Purchase header row (table purchases). -/
structure PurchaseRec where
  id : Nat
  supplierId : Nat
  branchId : Nat
  invoiceNo : String
  totalAmount : Int
  discount : Int
  tax : Int
  grandTotal : Int
  deriving DecidableEq

/-- Purchase line-item row (table purchase_items). -/
structure PurchaseItemRec where
  id : Nat
  purchaseId : Nat
  productId : Nat
  quantity : Nat
  unitCost : Int
  subtotal : Int
  deriving DecidableEq

/-- Loyalty account row (table customer_loyalty), unique per customerId. -/
structure LoyaltyRec where
  customerId : Nat
  pointsBalance : Int
  totalEarned : Int
  totalRedeemed : Int
  deriving DecidableEq

/-- Inventory-log row (table inventory_logs).  Every inventoryLog.create in
the services is commented out, so the in-scope operations never append one;
the table is kept in the state so that this fact is provable. -/
structure InventoryLogRec where
  productId : Nat
  branchId : Nat
  quantityChange : Int
  deriving DecidableEq

/-- The persistent state touched by the transactional core. -/
structure DB where
  stocks : List StockRec
  sales : List SaleRec
  saleItems : List SaleItemRec
  saleReturns : List SaleReturnRec
  purchases : List PurchaseRec
  purchaseItems : List PurchaseItemRec
  loyalties : List LoyaltyRec
  inventoryLogs : List InventoryLogRec
  nextId : Nat
  deriving DecidableEq

/-- Typed outcomes of the service methods; each constructor marks one throw
site in the source (NotFoundException / BadRequestException / Prisma P2002 /
Prisma P2025). -/
inductive Err where
  | saleNotFound (id : Nat)
  | purchaseNotFound (id : Nat)
  | saleItemNotFound (id : Nat)
  | purchaseItemNotFound (id : Nat)
  | productNotInSale (productId saleId : Nat)
  | insufficientStock (productId : Nat) (available : Int) (requested : Nat)
  | duplicateInvoice
  | stockRowMissing
  | returnExceedsQuantity (requested sold : Nat)
  | refundExceedsValue (refund maxRefund : Int)
  | loyaltyNotFound (customerId : Nat)
  | pointsNotPositive
  | insufficientPoints (available requested : Int)
  | invalidPayment
  deriving DecidableEq

/-- stock.findUnique({ where: { productId_branchId } }). -/
def findStock (stocks : List StockRec) (p b : Nat) : Option StockRec :=
  stocks.find? (fun s => s.productId == p && s.branchId == b)

/-- stock.update on the (p, b) row, applying f to its quantity. -/
def mapStock (stocks : List StockRec) (p b : Nat) (f : Int → Int) :
    List StockRec :=
  stocks.map (fun s =>
    if s.productId == p && s.branchId == b then
      { s with quantity := f s.quantity }
    else s)

/-- stock.upsert: increment the existing row by q, or create it with
quantity = q. -/
def upsertStock (stocks : List StockRec) (p b q : Nat) : List StockRec :=
  match findStock stocks p b with
  | none => stocks ++ [⟨p, b, (q : Int)⟩]
  | some _ => mapStock stocks p b (fun x => x + (q : Int))

/-- stock.update with { quantity: { decrement: q } }: Prisma throws P2025 when
the row is absent, hence the Except. -/
def decStock (stocks : List StockRec) (p b q : Nat) :
    Except Err (List StockRec) :=
  match findStock stocks p b with
  | none => .error .stockRowMissing
  | some _ => .ok (mapStock stocks p b (fun x => x - (q : Int)))

/-- stock.update with { quantity: { increment: q } } (throws when absent). -/
def incStock (stocks : List StockRec) (p b q : Nat) :
    Except Err (List StockRec) :=
  match findStock stocks p b with
  | none => .error .stockRowMissing
  | some _ => .ok (mapStock stocks p b (fun x => x + (q : Int)))

/-- sale.findUnique({ where: { id } }). -/
def findSale (db : DB) (id : Nat) : Option SaleRec :=
  db.sales.find? (fun s => s.id == id)

/-- sale.update({ where: { id } }) applying f to the row. -/
def replaceSale (db : DB) (id : Nat) (f : SaleRec → SaleRec) : DB :=
  { db with sales := db.sales.map (fun s => if s.id == id then f s else s) }

/-- purchase.findUnique({ where: { id } }). -/
def findPurchase (db : DB) (id : Nat) : Option PurchaseRec :=
  db.purchases.find? (fun p => p.id == id)

/-- purchase.update({ where: { id } }) applying f to the row. -/
def replacePurchase (db : DB) (id : Nat) (f : PurchaseRec → PurchaseRec) :
    DB :=
  { db with purchases := db.purchases.map (fun p => if p.id == id then f p else p) }

/-- saleItem.findUnique({ where: { id } }). -/
def findSaleItem (db : DB) (itemId : Nat) : Option SaleItemRec :=
  db.saleItems.find? (fun i => i.id == itemId)

/-- purchaseItem.findUnique({ where: { id } }). -/
def findPurchaseItem (db : DB) (itemId : Nat) : Option PurchaseItemRec :=
  db.purchaseItems.find? (fun i => i.id == itemId)

/-- customerLoyalty.findUnique({ where: { customerId } }). -/
def findLoyalty (db : DB) (customerId : Nat) : Option LoyaltyRec :=
  db.loyalties.find? (fun l => l.customerId == customerId)

/-- customerLoyalty.update({ where: { customerId } }) applying f. -/
def replaceLoyalty (db : DB) (customerId : Nat) (f : LoyaltyRec → LoyaltyRec) :
    DB :=
  { db with loyalties :=
      db.loyalties.map (fun l => if l.customerId == customerId then f l else l) }

/-- One element of SaleService.create's items array. -/
structure SaleItemInput where
  productId : Nat
  quantity : Nat
  unitPrice : Int
  total : Int
  deriving DecidableEq

/-- The argument object of SaleService.create. -/
structure CreateSaleInput where
  branchId : Nat
  customerId : Option Nat
  invoiceNo : String
  discount : Int
  tax : Int
  items : List SaleItemInput
  deriving DecidableEq

/-- The stock-availability loop at the top of SaleService.create's
transaction: for each item, findUnique the stock row and fail with the
insufficient-stock message when the row is absent or its quantity is below
the requested quantity (available reported as stock?.quantity || 0). -/
def checkStockItems (stocks : List StockRec) (branchId : Nat) :
    List SaleItemInput → Except Err Unit
  | [] => .ok ()
  | item :: rest =>
    match findStock stocks item.productId branchId with
    | none => .error (.insufficientStock item.productId 0 item.quantity)
    | some s =>
      if s.quantity < (item.quantity : Int) then
        .error (.insufficientStock item.productId s.quantity item.quantity)
      else
        checkStockItems stocks branchId rest

/-- The stock-decrement loop at the bottom of SaleService.create's
transaction (one stock.update per item, no further checks). -/
def decStockItems (branchId : Nat) :
    List StockRec → List SaleItemInput → Except Err (List StockRec)
  | stocks, [] => .ok stocks
  | stocks, item :: rest =>
    match decStock stocks item.productId branchId item.quantity with
    | .error e => .error e
    | .ok stocks1 => decStockItems branchId stocks1 rest

/-- SaleService.create.  Computes itemsTotal as the sum of the caller-supplied
item.total fields, validates stock for every item, checks the unique invoice
number, persists the SaleHeader with paidAmount = grandTotal and
dueAmount = 0, and decrements stock per item.  The saleItems: { create: ... }
block and the inventoryLog.create block are commented out in the source, so
no line items and no inventory-log entries are written. -/
def createSale (db : DB) (inp : CreateSaleInput) :
    Except Err (SaleRec × DB) :=
  let itemsTotal : Int := (inp.items.map (fun i => i.total)).sum
  let grandTotal : Int := itemsTotal - inp.discount + inp.tax
  match checkStockItems db.stocks inp.branchId inp.items with
  | .error e => .error e
  | .ok () =>
    if db.sales.any (fun s => s.invoiceNo == inp.invoiceNo) then
      .error .duplicateInvoice
    else
      let sale : SaleRec :=
        { id := db.nextId
          branchId := inp.branchId
          customerId := inp.customerId
          invoiceNo := inp.invoiceNo
          totalAmount := itemsTotal
          discount := inp.discount
          tax := inp.tax
          grandTotal := grandTotal
          paidAmount := grandTotal
          dueAmount := 0
          status := SaleStatus.COMPLETED }
      let db1 : DB :=
        { db with sales := db.sales ++ [sale], nextId := db.nextId + 1 }
      match decStockItems inp.branchId db1.stocks inp.items with
      | .error e => .error e
      | .ok stocks2 => .ok (sale, { db1 with stocks := stocks2 })

/-- SaleService.updatePayment: bounds-check paidAmount against grandTotal,
recompute dueAmount, derive status (dueAmount == 0 => COMPLETED, else
paidAmount > 0 => PARTIAL, else PENDING) and update the row. -/
def updatePayment (db : DB) (id : Nat) (paidAmount : Int) :
    Except Err (SaleRec × DB) :=
  match findSale db id with
  | none => .error (.saleNotFound id)
  | some sale =>
    let dueAmount : Int := sale.grandTotal - paidAmount
    if paidAmount < 0 ∨ sale.grandTotal < paidAmount then
      .error .invalidPayment
    else
      let status : SaleStatus :=
        if dueAmount = 0 then SaleStatus.COMPLETED
        else if 0 < paidAmount then SaleStatus.PARTIAL
        else SaleStatus.PENDING
      let sale1 : SaleRec :=
        { sale with paidAmount := paidAmount, dueAmount := dueAmount,
                    status := status }
      .ok (sale1, replaceSale db id (fun s =>
        { s with paidAmount := paidAmount, dueAmount := dueAmount,
                 status := status }))

/-- SaleService.addItemToSale: stock-check, create the sale item, re-derive
the header totals, decrement stock. -/
def addItemToSale (db : DB) (saleId productId quantity : Nat)
    (unitPrice : Int) : Except Err (SaleItemRec × DB) :=
  match findSale db saleId with
  | none => .error (.saleNotFound saleId)
  | some sale =>
    match findStock db.stocks productId sale.branchId with
    | none => .error (.insufficientStock productId 0 quantity)
    | some st =>
      if st.quantity < (quantity : Int) then
        .error (.insufficientStock productId st.quantity quantity)
      else
        let subtotal : Int := unitPrice * (quantity : Int)
        let item : SaleItemRec :=
          { id := db.nextId, saleId := saleId, productId := productId,
            quantity := quantity, unitPrice := unitPrice, subtotal := subtotal }
        let newTotalAmount : Int := sale.totalAmount + subtotal
        let newGrandTotal : Int := newTotalAmount - sale.discount + sale.tax
        let newDueAmount : Int := newGrandTotal - sale.paidAmount
        let db1 : DB :=
          { db with saleItems := db.saleItems ++ [item],
                    nextId := db.nextId + 1 }
        let db2 : DB := replaceSale db1 saleId (fun s =>
          { s with totalAmount := newTotalAmount, grandTotal := newGrandTotal,
                   dueAmount := newDueAmount })
        .ok (item, { db2 with
          stocks := mapStock db2.stocks productId sale.branchId
            (fun x => x - (quantity : Int)) })

/-- SaleService.removeItemFromSale: delete the sale item, re-derive the header
totals, restore stock with an unconditional increment. -/
def removeItemFromSale (db : DB) (saleId itemId : Nat) :
    Except Err (SaleItemRec × DB) :=
  match findSale db saleId with
  | none => .error (.saleNotFound saleId)
  | some sale =>
    match findSaleItem db itemId with
    | none => .error (.saleItemNotFound itemId)
    | some item =>
      if item.saleId ≠ saleId then .error (.saleItemNotFound itemId)
      else
        let db1 : DB :=
          { db with saleItems := db.saleItems.filter (fun i => i.id != itemId) }
        let newTotalAmount : Int := sale.totalAmount - item.subtotal
        let newGrandTotal : Int := newTotalAmount - sale.discount + sale.tax
        let newDueAmount : Int := newGrandTotal - sale.paidAmount
        let db2 : DB := replaceSale db1 saleId (fun s =>
          { s with totalAmount := newTotalAmount, grandTotal := newGrandTotal,
                   dueAmount := newDueAmount })
        match incStock db2.stocks item.productId sale.branchId item.quantity with
        | .error e => .error e
        | .ok stocks3 => .ok (item, { db2 with stocks := stocks3 })

/-- The per-item stock restore loop of SaleService.remove (cancellation). -/
def incStockItems (branchId : Nat) :
    List StockRec → List SaleItemRec → Except Err (List StockRec)
  | stocks, [] => .ok stocks
  | stocks, item :: rest =>
    match incStock stocks item.productId branchId item.quantity with
    | .error e => .error e
    | .ok stocks1 => incStockItems branchId stocks1 rest

/-- SaleService.remove: restore stock for every persisted sale item of the
sale, then update the sale row with an empty data object (the
status: 'CANCELLED' line is commented out, so no field changes). -/
def cancelSale (db : DB) (id : Nat) : Except Err (SaleRec × DB) :=
  match findSale db id with
  | none => .error (.saleNotFound id)
  | some sale =>
    let items := db.saleItems.filter (fun i => i.saleId == id)
    match incStockItems sale.branchId db.stocks items with
    | .error e => .error e
    | .ok stocks1 => .ok (sale, { db with stocks := stocks1 })

/-- One element of PurchaseService.create's items array. -/
structure PurchaseItemInput where
  productId : Nat
  quantity : Nat
  unitCost : Int
  total : Int
  deriving DecidableEq

/-- The argument object of PurchaseService.create. -/
structure CreatePurchaseInput where
  supplierId : Nat
  branchId : Nat
  invoiceNo : String
  discount : Int
  tax : Int
  items : List PurchaseItemInput
  deriving DecidableEq

/-- The per-item stock upsert loop of PurchaseService.create. -/
def upsertStockItems (branchId : Nat) :
    List StockRec → List PurchaseItemInput → List StockRec
  | stocks, [] => stocks
  | stocks, item :: rest =>
    upsertStockItems branchId
      (upsertStock stocks item.productId branchId item.quantity) rest

/-- PurchaseService.create.  totalAmount is the sum of the caller-supplied
item.total fields (the service never recomputes quantity times unitCost);
grandTotal = totalAmount - discount + tax.  The purchaseItems: { create: ...}
block and the inventoryLog.create block are commented out in the source, so
no line items and no inventory-log entries are written; stock is upserted
(+quantity) per item. -/
def createPurchase (db : DB) (inp : CreatePurchaseInput) :
    Except Err (PurchaseRec × DB) :=
  let itemsTotal : Int := (inp.items.map (fun i => i.total)).sum
  let grandTotal : Int := itemsTotal - inp.discount + inp.tax
  if db.purchases.any (fun p => p.invoiceNo == inp.invoiceNo) then
    .error .duplicateInvoice
  else
    let purchase : PurchaseRec :=
      { id := db.nextId
        supplierId := inp.supplierId
        branchId := inp.branchId
        invoiceNo := inp.invoiceNo
        totalAmount := itemsTotal
        discount := inp.discount
        tax := inp.tax
        grandTotal := grandTotal }
    let db1 : DB :=
      { db with purchases := db.purchases ++ [purchase],
                nextId := db.nextId + 1 }
    .ok (purchase,
      { db1 with stocks := upsertStockItems inp.branchId db1.stocks inp.items })

/-- PurchaseService.addItemToPurchase: create the purchase item, re-derive the
header totals, upsert stock (+quantity). -/
def addItemToPurchase (db : DB) (purchaseId productId quantity : Nat)
    (unitCost : Int) : Except Err (PurchaseItemRec × DB) :=
  match findPurchase db purchaseId with
  | none => .error (.purchaseNotFound purchaseId)
  | some purchase =>
    let subtotal : Int := unitCost * (quantity : Int)
    let item : PurchaseItemRec :=
      { id := db.nextId, purchaseId := purchaseId, productId := productId,
        quantity := quantity, unitCost := unitCost, subtotal := subtotal }
    let newTotalAmount : Int := purchase.totalAmount + subtotal
    let newGrandTotal : Int := newTotalAmount - purchase.discount + purchase.tax
    let db1 : DB :=
      { db with purchaseItems := db.purchaseItems ++ [item],
                nextId := db.nextId + 1 }
    let db2 : DB := replacePurchase db1 purchaseId (fun p =>
      { p with totalAmount := newTotalAmount, grandTotal := newGrandTotal })
    .ok (item, { db2 with
      stocks := upsertStock db2.stocks productId purchase.branchId quantity })

/-- PurchaseService.removeItemFromPurchase: delete the purchase item,
re-derive the header totals, and decrement stock by the removed quantity.
The source applies the decrement with no non-negativity check. -/
def removeItemFromPurchase (db : DB) (purchaseId itemId : Nat) :
    Except Err (PurchaseItemRec × DB) :=
  match findPurchase db purchaseId with
  | none => .error (.purchaseNotFound purchaseId)
  | some purchase =>
    match findPurchaseItem db itemId with
    | none => .error (.purchaseItemNotFound itemId)
    | some item =>
      if item.purchaseId ≠ purchaseId then .error (.purchaseItemNotFound itemId)
      else
        let db1 : DB :=
          { db with purchaseItems :=
              db.purchaseItems.filter (fun i => i.id != itemId) }
        let newTotalAmount : Int := purchase.totalAmount - item.subtotal
        let newGrandTotal : Int :=
          newTotalAmount - purchase.discount + purchase.tax
        let db2 : DB := replacePurchase db1 purchaseId (fun p =>
          { p with totalAmount := newTotalAmount, grandTotal := newGrandTotal })
        match decStock db2.stocks item.productId purchase.branchId
            item.quantity with
        | .error e => .error e
        | .ok stocks3 => .ok (item, { db2 with stocks := stocks3 })

/-- The argument object of SaleReturnService.create. -/
structure CreateReturnInput where
  saleId : Nat
  productId : Nat
  quantity : Nat
  refundAmount : Int
  deriving DecidableEq

/-- sale.saleItems.find(item => item.productId === productId) inside the
sale-return service: the first line item of the sale for the product. -/
def findSaleItemOfSale (db : DB) (saleId productId : Nat) :
    Option SaleItemRec :=
  (db.saleItems.filter (fun i => i.saleId == saleId)).find?
    (fun i => i.productId == productId)

/-- SaleReturnService.create.  Guards: the sale exists, a line item for the
product exists, quantity <= that line item's quantity (prior returns are NOT
consulted), refundAmount <= unitPrice * quantity.  On success persists the
SaleReturn (status defaults to PENDING) and upserts stock (+quantity) at the
sale's branch; the inventoryLog.create block is commented out. -/
def createReturn (db : DB) (inp : CreateReturnInput) :
    Except Err (SaleReturnRec × DB) :=
  match findSale db inp.saleId with
  | none => .error (.saleNotFound inp.saleId)
  | some sale =>
    match findSaleItemOfSale db inp.saleId inp.productId with
    | none => .error (.productNotInSale inp.productId inp.saleId)
    | some saleItem =>
      if saleItem.quantity < inp.quantity then
        .error (.returnExceedsQuantity inp.quantity saleItem.quantity)
      else
        let maxRefund : Int := saleItem.unitPrice * (inp.quantity : Int)
        if maxRefund < inp.refundAmount then
          .error (.refundExceedsValue inp.refundAmount maxRefund)
        else
          let ret : SaleReturnRec :=
            { id := db.nextId, saleId := inp.saleId,
              productId := inp.productId, quantity := inp.quantity,
              refundAmount := inp.refundAmount, status := ReturnStatus.PENDING }
          let db1 : DB :=
            { db with saleReturns := db.saleReturns ++ [ret],
                      nextId := db.nextId + 1 }
          .ok (ret, { db1 with
            stocks := upsertStock db1.stocks inp.productId sale.branchId
              inp.quantity })

/-- The object returned by SaleReturnService.validateReturn. -/
structure ReturnValidation where
  isValid : Bool
  availableToReturn : Int
  alreadyReturned : Int
  soldQuantity : Nat
  unitPrice : Int
  maxRefundAmount : Int
  deriving DecidableEq

/-- SaleReturnService.validateReturn: a pure read; alreadyReturned sums the
quantities of ALL returns of (saleId, productId) regardless of status, and
isValid = quantity <= soldQuantity - alreadyReturned. -/
def validateReturn (db : DB) (saleId productId quantity : Nat) :
    Except Err ReturnValidation :=
  match findSale db saleId with
  | none => .error (.saleNotFound saleId)
  | some _ =>
    match findSaleItemOfSale db saleId productId with
    | none => .error (.productNotInSale productId saleId)
    | some saleItem =>
      let alreadyReturned : Int :=
        ((db.saleReturns.filter
          (fun r => r.saleId == saleId && r.productId == productId)).map
            (fun r => (r.quantity : Int))).sum
      let availableToReturn : Int := (saleItem.quantity : Int) - alreadyReturned
      .ok { isValid := decide ((quantity : Int) ≤ availableToReturn)
            availableToReturn := availableToReturn
            alreadyReturned := alreadyReturned
            soldQuantity := saleItem.quantity
            unitPrice := saleItem.unitPrice
            maxRefundAmount := saleItem.unitPrice * (quantity : Int) }

/-- CustomerLoyaltyService.addPoints: requires points > 0 and an existing
account; increments pointsBalance and totalEarned by points (the
loyaltyTransaction.create block is commented out). -/
def addPoints (db : DB) (customerId : Nat) (points : Int) :
    Except Err (LoyaltyRec × DB) :=
  if points ≤ 0 then .error .pointsNotPositive
  else
    match findLoyalty db customerId with
    | none => .error (.loyaltyNotFound customerId)
    | some l =>
      let f : LoyaltyRec → LoyaltyRec := fun x =>
        { x with pointsBalance := x.pointsBalance + points,
                 totalEarned := x.totalEarned + points }
      .ok (f l, replaceLoyalty db customerId f)

/-- CustomerLoyaltyService.redeemPoints: requires points > 0, an existing
account, and pointsBalance >= points; decrements pointsBalance and increments
totalRedeemed by points. -/
def redeemPoints (db : DB) (customerId : Nat) (points : Int) :
    Except Err (LoyaltyRec × DB) :=
  if points ≤ 0 then .error .pointsNotPositive
  else
    match findLoyalty db customerId with
    | none => .error (.loyaltyNotFound customerId)
    | some l =>
      if l.pointsBalance < points then
        .error (.insufficientPoints l.pointsBalance points)
      else
        let f : LoyaltyRec → LoyaltyRec := fun x =>
          { x with pointsBalance := x.pointsBalance - points,
                   totalRedeemed := x.totalRedeemed + points }
        .ok (f l, replaceLoyalty db customerId f)

/-- CustomerLoyaltyService.adjustPoints: signed admin correction; sets
pointsBalance to the fetched balance + points, routes positive deltas into
totalEarned and negative ones (as Math.abs(points)) into totalRedeemed. -/
def adjustPoints (db : DB) (customerId : Nat) (points : Int) :
    Except Err (LoyaltyRec × DB) :=
  match findLoyalty db customerId with
  | none => .error (.loyaltyNotFound customerId)
  | some l =>
    let f : LoyaltyRec → LoyaltyRec := fun x =>
      { x with
          pointsBalance := l.pointsBalance + points
          totalEarned := if 0 < points then x.totalEarned + points
                         else x.totalEarned
          totalRedeemed := if points < 0 then
                             x.totalRedeemed + (points.natAbs : Int)
                           else x.totalRedeemed }
    .ok (f l, replaceLoyalty db customerId f)

/-- CustomerLoyaltyService.resetAccount: zero pointsBalance and move the
fetched balance into totalRedeemed. -/
def resetAccount (db : DB) (customerId : Nat) :
    Except Err (LoyaltyRec × DB) :=
  match findLoyalty db customerId with
  | none => .error (.loyaltyNotFound customerId)
  | some l =>
    let f : LoyaltyRec → LoyaltyRec := fun x =>
      { x with pointsBalance := 0,
               totalRedeemed := x.totalRedeemed + l.pointsBalance }
    .ok (f l, replaceLoyalty db customerId f)

/-- calculatePointsFromSale: Math.floor(saleAmount * 0.1).  The 0.1 earn rate
is modelled as exact floor division of the integral amount by 10. -/
def calculatePointsFromSale (saleAmount : Int) : Int :=
  Int.fdiv saleAmount 10

/-- CustomerLoyaltyService.processSalePoints: look up the sale (failing when
it is absent or has no customer), create the loyalty account with zeros when
missing, and when calculatePointsFromSale grandTotal > 0 increment
pointsBalance and totalEarned by it. -/
def processSalePoints (db : DB) (saleId : Nat) :
    Except Err (Int × DB) :=
  match findSale db saleId with
  | none => .error (.saleNotFound saleId)
  | some sale =>
    match sale.customerId with
    | none => .error (.saleNotFound saleId)
    | some customerId =>
      let db1 : DB :=
        match findLoyalty db customerId with
        | none =>
          { db with loyalties := db.loyalties ++ [⟨customerId, 0, 0, 0⟩] }
        | some _ => db
      let pointsEarned : Int := calculatePointsFromSale sale.grandTotal
      if 0 < pointsEarned then
        .ok (pointsEarned, replaceLoyalty db1 customerId (fun x =>
          { x with pointsBalance := x.pointsBalance + pointsEarned,
                   totalEarned := x.totalEarned + pointsEarned }))
      else
        .ok (0, db1)

/-- The eight core inventory operations named by the stock invariant claim. -/
inductive Op where
  | createPurchase (inp : CreatePurchaseInput)
  | createSale (inp : CreateSaleInput)
  | addItemToSale (saleId productId quantity : Nat) (unitPrice : Int)
  | removeItemFromSale (saleId itemId : Nat)
  | addItemToPurchase (purchaseId productId quantity : Nat) (unitCost : Int)
  | removeItemFromPurchase (purchaseId itemId : Nat)
  | createReturn (inp : CreateReturnInput)
  | cancelSale (saleId : Nat)
  deriving DecidableEq

/-- Run one core operation; a failed operation rolls its transaction back, so
the state is unchanged on error. -/
def applyOp (db : DB) : Op → DB
  | .createPurchase inp =>
    match createPurchase db inp with
    | .ok (_, db1) => db1
    | .error _ => db
  | .createSale inp =>
    match createSale db inp with
    | .ok (_, db1) => db1
    | .error _ => db
  | .addItemToSale saleId productId quantity unitPrice =>
    match addItemToSale db saleId productId quantity unitPrice with
    | .ok (_, db1) => db1
    | .error _ => db
  | .removeItemFromSale saleId itemId =>
    match removeItemFromSale db saleId itemId with
    | .ok (_, db1) => db1
    | .error _ => db
  | .addItemToPurchase purchaseId productId quantity unitCost =>
    match addItemToPurchase db purchaseId productId quantity unitCost with
    | .ok (_, db1) => db1
    | .error _ => db
  | .removeItemFromPurchase purchaseId itemId =>
    match removeItemFromPurchase db purchaseId itemId with
    | .ok (_, db1) => db1
    | .error _ => db
  | .createReturn inp =>
    match createReturn db inp with
    | .ok (_, db1) => db1
    | .error _ => db
  | .cancelSale saleId =>
    match cancelSale db saleId with
    | .ok (_, db1) => db1
    | .error _ => db

/-- Run a sequence of core operations left to right. -/
def runOps (db : DB) (ops : List Op) : DB :=
  ops.foldl applyOp db

/-- The five loyalty operations named by the loyalty balance claim. -/
inductive LoyaltyOp where
  | addPoints (customerId : Nat) (points : Int)
  | redeemPoints (customerId : Nat) (points : Int)
  | adjustPoints (customerId : Nat) (points : Int)
  | resetAccount (customerId : Nat)
  | processSalePoints (saleId : Nat)
  deriving DecidableEq

/-- Run one loyalty operation; on error the transaction rolls back and the
state is unchanged. -/
def applyLoyaltyOp (db : DB) : LoyaltyOp → DB
  | .addPoints customerId points =>
    match addPoints db customerId points with
    | .ok (_, db1) => db1
    | .error _ => db
  | .redeemPoints customerId points =>
    match redeemPoints db customerId points with
    | .ok (_, db1) => db1
    | .error _ => db
  | .adjustPoints customerId points =>
    match adjustPoints db customerId points with
    | .ok (_, db1) => db1
    | .error _ => db
  | .resetAccount customerId =>
    match resetAccount db customerId with
    | .ok (_, db1) => db1
    | .error _ => db
  | .processSalePoints saleId =>
    match processSalePoints db saleId with
    | .ok (_, db1) => db1
    | .error _ => db

/-- The (productId, branchId) key of a stock row. -/
def stockKey (s : StockRec) : Nat × Nat := (s.productId, s.branchId)

/-- Every stock quantity is non-negative. -/
def StocksNonneg (stocks : List StockRec) : Prop :=
  ∀ s ∈ stocks, 0 ≤ s.quantity

/-- At most one stock row per (productId, branchId), as enforced by the
unique index of the migration. -/
def StocksUnique (stocks : List StockRec) : Prop :=
  (stocks.map stockKey).Nodup

/-- The Stock Ledger invariant of the spec, on a whole state. -/
def StockNonneg (db : DB) : Prop := StocksNonneg db.stocks

/-- The at-most-one-row-per-pair invariant, on a whole state. -/
def StockUnique (db : DB) : Prop := StocksUnique db.stocks

lemma findStock_some {stocks : List StockRec} {p b : Nat} {s : StockRec}
    (h : findStock stocks p b = some s) :
    s ∈ stocks ∧ s.productId = p ∧ s.branchId = b := by
  have h1 := List.mem_of_find?_eq_some h
  have h2 := List.find?_some h
  simp only [Bool.and_eq_true, beq_iff_eq] at h2
  exact ⟨h1, h2.1, h2.2⟩

lemma findStock_none {stocks : List StockRec} {p b : Nat}
    (h : findStock stocks p b = none) :
    ∀ s ∈ stocks, ¬(s.productId = p ∧ s.branchId = b) := by
  intro s hs hc
  rw [findStock, List.find?_eq_none] at h
  have := h s hs
  simp only [Bool.and_eq_true, beq_iff_eq] at this
  exact this ⟨hc.1, hc.2⟩

lemma findStock_unique_mem :
    ∀ {stocks : List StockRec} {p b : Nat} {s : StockRec},
      StocksUnique stocks → s ∈ stocks → s.productId = p → s.branchId = b →
      findStock stocks p b = some s := by
  intro stocks
  induction stocks with
  | nil => intro p b s _ hs; simp at hs
  | cons t rest ih =>
    intro p b s hu hs hp hb
    have hu' : (stockKey t :: rest.map stockKey).Nodup := hu
    rw [List.nodup_cons] at hu'
    by_cases hc : (t.productId == p && t.branchId == b) = true
    · have hkey : t.productId = p ∧ t.branchId = b := by
        simpa using hc
      have hst : s = t := by
        rcases List.mem_cons.mp hs with h | h
        · exact h
        · exfalso
          apply hu'.1
          have : stockKey s = stockKey t := by
            simp [stockKey, hkey.1, hkey.2, hp, hb]
          rw [← this]
          exact List.mem_map_of_mem stockKey h
      have : findStock (t :: rest) p b = some t := by
        unfold findStock
        rw [List.find?_cons]
        simp only [hc]
      rw [this, hst]
    · have hst : s ∈ rest := by
        rcases List.mem_cons.mp hs with h | h
        · exfalso
          apply hc
          simp only [Bool.and_eq_true, beq_iff_eq]
          rw [← h]
          exact ⟨hp, hb⟩
        · exact h
      have hstep : findStock (t :: rest) p b = findStock rest p b := by
        unfold findStock
        rw [List.find?_cons]
        simp only [Bool.not_eq_true] at hc
        simp only [hc]
      rw [hstep]
      exact ih hu'.2 hst hp hb

lemma stockKey_setQuantity (s : StockRec) (q : Int) :
    stockKey { s with quantity := q } = stockKey s := rfl

lemma findStock_cons (t : StockRec) (rest : List StockRec) (p b : Nat) :
    findStock (t :: rest) p b =
      if (t.productId == p && t.branchId == b) = true then some t
      else findStock rest p b := by
  unfold findStock
  rw [List.find?_cons]
  by_cases hc : (t.productId == p && t.branchId == b) = true
  · simp only [hc, if_true]
  · simp only [Bool.not_eq_true] at hc
    simp only [hc, if_false]
    simp

lemma mapStock_cons (t : StockRec) (rest : List StockRec) (p b : Nat)
    (f : Int → Int) :
    mapStock (t :: rest) p b f =
      (if (t.productId == p && t.branchId == b) = true then
        { t with quantity := f t.quantity } else t) :: mapStock rest p b f :=
  rfl

lemma mapStock_keys (stocks : List StockRec) (p b : Nat) (f : Int → Int) :
    (mapStock stocks p b f).map stockKey = stocks.map stockKey := by
  induction stocks with
  | nil => rfl
  | cons t rest ih =>
    rw [mapStock_cons, List.map_cons, List.map_cons, ih]
    by_cases hc : (t.productId == p && t.branchId == b) = true
    · rw [if_pos hc, stockKey_setQuantity]
    · rw [if_neg hc]

lemma mapStock_unique {stocks : List StockRec} (p b : Nat) (f : Int → Int)
    (h : StocksUnique stocks) : StocksUnique (mapStock stocks p b f) := by
  unfold StocksUnique
  rw [mapStock_keys]
  exact h

lemma mapStock_nonneg_add {stocks : List StockRec} {p b : Nat} (q : Nat)
    (h : StocksNonneg stocks) :
    StocksNonneg (mapStock stocks p b (fun x => x + (q : Int))) := by
  intro t ht
  rcases List.mem_map.mp ht with ⟨s, hs, hgs⟩
  by_cases hc : (s.productId == p && s.branchId == b) = true
  · simp only [hc, if_true] at hgs
    rw [← hgs]
    have := h s hs
    positivity
  · simp only [hc, if_false] at hgs
    rw [← hgs]
    exact h s hs

lemma mapStock_nonneg_sub {stocks : List StockRec} {p b : Nat}
    {s : StockRec} {q : Nat}
    (hu : StocksUnique stocks) (hn : StocksNonneg stocks)
    (hf : findStock stocks p b = some s) (hq : (q : Int) ≤ s.quantity) :
    StocksNonneg (mapStock stocks p b (fun x => x - (q : Int))) := by
  intro t ht
  rcases List.mem_map.mp ht with ⟨u, hu', hgu⟩
  by_cases hc : (u.productId == p && u.branchId == b) = true
  · have hkey : u.productId = p ∧ u.branchId = b := by simpa using hc
    have hfind : findStock stocks p b = some u :=
      findStock_unique_mem hu hu' hkey.1 hkey.2
    have hus : u = s := by
      rw [hf] at hfind
      exact (Option.some.inj hfind).symm
    simp only [hc, if_true] at hgu
    rw [← hgu, hus]
    show (0 : Int) ≤ s.quantity - (q : Int)
    omega
  · simp only [hc, if_false] at hgu
    rw [← hgu]
    exact hn u hu'

lemma upsertStock_nonneg {stocks : List StockRec} (p b q : Nat)
    (h : StocksNonneg stocks) : StocksNonneg (upsertStock stocks p b q) := by
  unfold upsertStock
  cases hf : findStock stocks p b with
  | none =>
    intro t ht
    rcases List.mem_append.mp ht with h1 | h1
    · exact h t h1
    · simp at h1
      rw [h1]
      positivity
  | some s => exact mapStock_nonneg_add q h

lemma upsertStock_unique {stocks : List StockRec} (p b q : Nat)
    (h : StocksUnique stocks) : StocksUnique (upsertStock stocks p b q) := by
  unfold upsertStock
  cases hf : findStock stocks p b with
  | none =>
    unfold StocksUnique
    rw [List.map_append]
    simp only [List.map_cons, List.map_nil]
    rw [List.nodup_append]
    refine ⟨h, List.nodup_singleton _, ?_⟩
    intro k hk hk'
    simp only [List.mem_singleton] at hk'
    rcases List.mem_map.mp hk with ⟨s, hs, hks⟩
    apply findStock_none hf s hs
    have : stockKey s = (p, b) := by rw [hks, hk']; rfl
    unfold stockKey at this
    constructor
    · exact congrArg Prod.fst this
    · exact congrArg Prod.snd this
  | some s => exact mapStock_unique p b _ h

lemma checkStockItems_ok {stocks : List StockRec} {branchId : Nat} :
    ∀ {items : List SaleItemInput},
      checkStockItems stocks branchId items = .ok () →
      ∀ item ∈ items, ∃ s, findStock stocks item.productId branchId = some s ∧
        (item.quantity : Int) ≤ s.quantity := by
  intro items
  induction items with
  | nil =>
    intro _ item h
    simp at h
  | cons a rest ih =>
    intro h item hmem
    cases hf : findStock stocks a.productId branchId with
    | none =>
      simp only [checkStockItems, hf] at h
      exact Except.noConfusion h
    | some s =>
      simp only [checkStockItems, hf] at h
      by_cases hq : s.quantity < (a.quantity : Int)
      · rw [if_pos hq] at h
        simp at h
      · rw [if_neg hq] at h
        rcases List.mem_cons.mp hmem with rfl | hmem'
        · exact ⟨s, hf, le_of_not_lt hq⟩
        · exact ih h item hmem'

lemma stockSet_productId (s : StockRec) (q : Int) :
    ({ s with quantity := q } : StockRec).productId = s.productId := rfl

lemma stockSet_branchId (s : StockRec) (q : Int) :
    ({ s with quantity := q } : StockRec).branchId = s.branchId := rfl

lemma findStock_mapStock_ne {stocks : List StockRec} {p b p' b' : Nat}
    (f : Int → Int) (hne : ¬(p' = p ∧ b' = b)) :
    findStock (mapStock stocks p b f) p' b' = findStock stocks p' b' := by
  induction stocks with
  | nil => rfl
  | cons t rest ih =>
    rw [mapStock_cons]
    by_cases hc2 : (t.productId == p && t.branchId == b) = true
    · have hkey2 : t.productId = p ∧ t.branchId = b := by simpa using hc2
      have hc : ¬(t.productId == p' && t.branchId == b') = true := by
        simp only [Bool.and_eq_true, beq_iff_eq]
        rintro ⟨h1, h2⟩
        apply hne
        constructor
        · rw [← h1]; exact hkey2.1
        · rw [← h2]; exact hkey2.2
      rw [if_pos hc2, findStock_cons, findStock_cons, if_neg ?hl, if_neg hc]
      case hl =>
        rw [stockSet_productId, stockSet_branchId]
        exact hc
      exact ih
    · rw [if_neg hc2, findStock_cons, findStock_cons]
      by_cases hc : (t.productId == p' && t.branchId == b') = true
      · rw [if_pos hc, if_pos hc]
      · rw [if_neg hc, if_neg hc]
        exact ih

lemma decStockItems_ok {branchId : Nat} :
    ∀ {items : List SaleItemInput} {stocks : List StockRec},
      StocksUnique stocks → StocksNonneg stocks →
      (∀ item ∈ items, ∃ s, findStock stocks item.productId branchId = some s ∧
        (item.quantity : Int) ≤ s.quantity) →
      (items.map (fun i => i.productId)).Nodup →
      ∀ {stocks' : List StockRec},
        decStockItems branchId stocks items = .ok stocks' →
        StocksUnique stocks' ∧ StocksNonneg stocks' := by
  intro items
  induction items with
  | nil =>
    intro stocks hu hn _ _ stocks' h
    simp only [decStockItems] at h
    cases h
    exact ⟨hu, hn⟩
  | cons a rest ih =>
    intro stocks hu hn hgood hnodup stocks' h
    obtain ⟨s, hf, hq⟩ := hgood a (List.mem_cons_self a rest)
    simp only [decStockItems, decStock, hf] at h
    rw [List.map_cons, List.nodup_cons] at hnodup
    have hnodup' := hnodup
    have hu1 : StocksUnique
        (mapStock stocks a.productId branchId (fun x => x - (a.quantity : Int))) :=
      mapStock_unique _ _ _ hu
    have hn1 : StocksNonneg
        (mapStock stocks a.productId branchId (fun x => x - (a.quantity : Int))) :=
      mapStock_nonneg_sub hu hn hf hq
    have hgood1 : ∀ item ∈ rest,
        ∃ t, findStock
          (mapStock stocks a.productId branchId (fun x => x - (a.quantity : Int)))
          item.productId branchId = some t ∧ (item.quantity : Int) ≤ t.quantity := by
      intro item hmem
      obtain ⟨t, hft, hqt⟩ := hgood item (List.mem_cons_of_mem a hmem)
      refine ⟨t, ?_, hqt⟩
      rw [findStock_mapStock_ne]
      · exact hft
      · rintro ⟨hp, _⟩
        apply hnodup'.1
        rw [← hp]
        exact List.mem_map_of_mem _ hmem
    exact ih hu1 hn1 hgood1 hnodup'.2 h

lemma incStockItems_ok {branchId : Nat} :
    ∀ {items : List SaleItemRec} {stocks stocks' : List StockRec},
      incStockItems branchId stocks items = .ok stocks' →
      StocksUnique stocks → StocksNonneg stocks →
      StocksUnique stocks' ∧ StocksNonneg stocks' := by
  intro items
  induction items with
  | nil =>
    intro stocks stocks' h hu hn
    simp only [incStockItems] at h
    cases h
    exact ⟨hu, hn⟩
  | cons a rest ih =>
    intro stocks stocks' h hu hn
    simp only [incStockItems, incStock] at h
    cases hf : findStock stocks a.productId branchId with
    | none =>
      rw [hf] at h
      simp at h
    | some s =>
      rw [hf] at h
      exact ih h (mapStock_unique _ _ _ hu) (mapStock_nonneg_add _ hn)

lemma upsertStockItems_good {branchId : Nat} :
    ∀ {items : List PurchaseItemInput} {stocks : List StockRec},
      StocksUnique stocks → StocksNonneg stocks →
      StocksUnique (upsertStockItems branchId stocks items) ∧
      StocksNonneg (upsertStockItems branchId stocks items) := by
  intro items
  induction items with
  | nil =>
    intro stocks hu hn
    exact ⟨hu, hn⟩
  | cons a rest ih =>
    intro stocks hu hn
    simp only [upsertStockItems]
    exact ih (upsertStock_unique _ _ _ hu) (upsertStock_nonneg _ _ _ hn)

lemma createPurchase_stocks {db : DB} {inp : CreatePurchaseInput}
    {res : PurchaseRec} {db' : DB}
    (h : createPurchase db inp = .ok (res, db'))
    (hu : StockUnique db) (hn : StockNonneg db) :
    StockUnique db' ∧ StockNonneg db' := by
  simp only [createPurchase] at h
  by_cases hdup : (db.purchases.any (fun p => p.invoiceNo == inp.invoiceNo)) = true
  · rw [if_pos hdup] at h
    exact Except.noConfusion h
  · rw [if_neg hdup] at h
    rw [Except.ok.injEq, Prod.mk.injEq] at h
    obtain ⟨-, h2⟩ := h
    subst h2
    exact upsertStockItems_good hu hn

lemma createSale_stocks {db : DB} {inp : CreateSaleInput} {sale : SaleRec}
    {db' : DB} (h : createSale db inp = .ok (sale, db'))
    (hu : StockUnique db) (hn : StockNonneg db)
    (hnodup : (inp.items.map (fun i => i.productId)).Nodup) :
    StockUnique db' ∧ StockNonneg db' := by
  simp only [createSale] at h
  cases hchk : checkStockItems db.stocks inp.branchId inp.items with
  | error e =>
    rw [hchk] at h
    exact Except.noConfusion h
  | ok u =>
    cases u
    rw [hchk] at h
    by_cases hdup : (db.sales.any (fun s => s.invoiceNo == inp.invoiceNo)) = true
    · rw [if_pos hdup] at h
      exact Except.noConfusion h
    · rw [if_neg hdup] at h
      cases hdec : decStockItems inp.branchId db.stocks inp.items with
      | error e =>
        rw [hdec] at h
        exact Except.noConfusion h
      | ok stocks2 =>
        rw [hdec] at h
        rw [Except.ok.injEq, Prod.mk.injEq] at h
        obtain ⟨-, h2⟩ := h
        subst h2
        exact decStockItems_ok hu hn (checkStockItems_ok hchk) hnodup hdec

lemma addItemToSale_stocks {db : DB} {saleId productId quantity : Nat}
    {unitPrice : Int} {res : SaleItemRec} {db' : DB}
    (h : addItemToSale db saleId productId quantity unitPrice = .ok (res, db'))
    (hu : StockUnique db) (hn : StockNonneg db) :
    StockUnique db' ∧ StockNonneg db' := by
  simp only [addItemToSale, replaceSale] at h
  cases hs : findSale db saleId with
  | none =>
    rw [hs] at h
    exact Except.noConfusion h
  | some sale =>
    simp only [hs] at h
    cases hf : findStock db.stocks productId sale.branchId with
    | none =>
      simp only [hf] at h
      exact Except.noConfusion h
    | some st =>
      simp only [hf] at h
      by_cases hq : st.quantity < (quantity : Int)
      · rw [if_pos hq] at h
        exact Except.noConfusion h
      · rw [if_neg hq] at h
        rw [Except.ok.injEq, Prod.mk.injEq] at h
        obtain ⟨-, h2⟩ := h
        subst h2
        constructor
        · show StocksUnique (mapStock db.stocks productId sale.branchId
            (fun x => x - (quantity : Int)))
          exact mapStock_unique _ _ _ hu
        · show StocksNonneg (mapStock db.stocks productId sale.branchId
            (fun x => x - (quantity : Int)))
          exact mapStock_nonneg_sub hu hn hf (le_of_not_lt hq)

lemma removeItemFromSale_stocks {db : DB} {saleId itemId : Nat}
    {res : SaleItemRec} {db' : DB}
    (h : removeItemFromSale db saleId itemId = .ok (res, db'))
    (hu : StockUnique db) (hn : StockNonneg db) :
    StockUnique db' ∧ StockNonneg db' := by
  simp only [removeItemFromSale, replaceSale] at h
  cases hs : findSale db saleId with
  | none =>
    rw [hs] at h
    exact Except.noConfusion h
  | some sale =>
    simp only [hs] at h
    cases hi : findSaleItem db itemId with
    | none =>
      simp only [hi] at h
      exact Except.noConfusion h
    | some item =>
      simp only [hi] at h
      by_cases hst : item.saleId ≠ saleId
      · rw [if_pos hst] at h
        exact Except.noConfusion h
      · rw [if_neg hst] at h
        cases hinc : incStock db.stocks item.productId sale.branchId
            item.quantity with
        | error e =>
          simp only [hinc] at h
          exact Except.noConfusion h
        | ok stocks3 =>
          simp only [hinc] at h
          rw [Except.ok.injEq, Prod.mk.injEq] at h
          obtain ⟨-, h2⟩ := h
          subst h2
          unfold incStock at hinc
          cases hf : findStock db.stocks item.productId sale.branchId with
          | none =>
            simp only [hf] at hinc
            exact Except.noConfusion hinc
          | some s =>
            simp only [hf] at hinc
            rw [Except.ok.injEq] at hinc
            subst hinc
            constructor
            · show StocksUnique (mapStock db.stocks item.productId
                sale.branchId (fun x => x + (item.quantity : Int)))
              exact mapStock_unique _ _ _ hu
            · show StocksNonneg (mapStock db.stocks item.productId
                sale.branchId (fun x => x + (item.quantity : Int)))
              exact mapStock_nonneg_add _ hn

lemma addItemToPurchase_stocks {db : DB} {purchaseId productId quantity : Nat}
    {unitCost : Int} {res : PurchaseItemRec} {db' : DB}
    (h : addItemToPurchase db purchaseId productId quantity unitCost
      = .ok (res, db'))
    (hu : StockUnique db) (hn : StockNonneg db) :
    StockUnique db' ∧ StockNonneg db' := by
  simp only [addItemToPurchase, replacePurchase] at h
  cases hp : findPurchase db purchaseId with
  | none =>
    rw [hp] at h
    exact Except.noConfusion h
  | some purchase =>
    rw [hp] at h
    rw [Except.ok.injEq, Prod.mk.injEq] at h
    obtain ⟨-, h2⟩ := h
    subst h2
    constructor
    · exact upsertStock_unique _ _ _ hu
    · exact upsertStock_nonneg _ _ _ hn

lemma createReturn_stocks {db : DB} {inp : CreateReturnInput}
    {res : SaleReturnRec} {db' : DB}
    (h : createReturn db inp = .ok (res, db'))
    (hu : StockUnique db) (hn : StockNonneg db) :
    StockUnique db' ∧ StockNonneg db' := by
  simp only [createReturn] at h
  cases hs : findSale db inp.saleId with
  | none =>
    rw [hs] at h
    exact Except.noConfusion h
  | some sale =>
    simp only [hs] at h
    cases hi : findSaleItemOfSale db inp.saleId inp.productId with
    | none =>
      simp only [hi] at h
      exact Except.noConfusion h
    | some saleItem =>
      simp only [hi] at h
      by_cases hq : saleItem.quantity < inp.quantity
      · rw [if_pos hq] at h
        exact Except.noConfusion h
      · rw [if_neg hq] at h
        by_cases hr : saleItem.unitPrice * (inp.quantity : Int) < inp.refundAmount
        · rw [if_pos hr] at h
          exact Except.noConfusion h
        · rw [if_neg hr] at h
          rw [Except.ok.injEq, Prod.mk.injEq] at h
          obtain ⟨-, h2⟩ := h
          subst h2
          constructor
          · exact upsertStock_unique _ _ _ hu
          · exact upsertStock_nonneg _ _ _ hn

lemma cancelSale_stocks {db : DB} {id : Nat} {res : SaleRec} {db' : DB}
    (h : cancelSale db id = .ok (res, db'))
    (hu : StockUnique db) (hn : StockNonneg db) :
    StockUnique db' ∧ StockNonneg db' := by
  simp only [cancelSale] at h
  cases hs : findSale db id with
  | none =>
    rw [hs] at h
    exact Except.noConfusion h
  | some sale =>
    simp only [hs] at h
    cases hinc : incStockItems sale.branchId db.stocks
        (db.saleItems.filter (fun i => i.saleId == id)) with
    | error e =>
      simp only [hinc] at h
      exact Except.noConfusion h
    | ok stocks1 =>
      simp only [hinc] at h
      rw [Except.ok.injEq, Prod.mk.injEq] at h
      obtain ⟨-, h2⟩ := h
      subst h2
      exact incStockItems_ok hinc hu hn

/-- The side conditions under which the stock invariant is actually preserved
by the code: removeItemFromPurchase is excluded (it decrements with no check)
and each createSale call's line items carry pairwise-distinct productIds (the
validation loop reads all rows before any decrement, so a repeated product is
checked twice against the same undecremented quantity). -/
def GoodOp : Op → Prop
  | .createSale inp => (inp.items.map (fun i => i.productId)).Nodup
  | .removeItemFromPurchase _ _ => False
  | _ => True

lemma applyOp_good {db : DB} {op : Op} (hu : StockUnique db)
    (hn : StockNonneg db) (hg : GoodOp op) :
    StockUnique (applyOp db op) ∧ StockNonneg (applyOp db op) := by
  cases op with
  | createPurchase inp =>
    simp only [applyOp]
    cases hres : createPurchase db inp with
    | error e => exact ⟨hu, hn⟩
    | ok pair =>
      cases pair with
      | mk res db1 => exact createPurchase_stocks hres hu hn
  | createSale inp =>
    simp only [applyOp]
    cases hres : createSale db inp with
    | error e => exact ⟨hu, hn⟩
    | ok pair =>
      cases pair with
      | mk res db1 => exact createSale_stocks hres hu hn hg
  | addItemToSale saleId productId quantity unitPrice =>
    simp only [applyOp]
    cases hres : addItemToSale db saleId productId quantity unitPrice with
    | error e => exact ⟨hu, hn⟩
    | ok pair =>
      cases pair with
      | mk res db1 => exact addItemToSale_stocks hres hu hn
  | removeItemFromSale saleId itemId =>
    simp only [applyOp]
    cases hres : removeItemFromSale db saleId itemId with
    | error e => exact ⟨hu, hn⟩
    | ok pair =>
      cases pair with
      | mk res db1 => exact removeItemFromSale_stocks hres hu hn
  | addItemToPurchase purchaseId productId quantity unitCost =>
    simp only [applyOp]
    cases hres : addItemToPurchase db purchaseId productId quantity unitCost with
    | error e => exact ⟨hu, hn⟩
    | ok pair =>
      cases pair with
      | mk res db1 => exact addItemToPurchase_stocks hres hu hn
  | removeItemFromPurchase purchaseId itemId => exact hg.elim
  | createReturn inp =>
    simp only [applyOp]
    cases hres : createReturn db inp with
    | error e => exact ⟨hu, hn⟩
    | ok pair =>
      cases pair with
      | mk res db1 => exact createReturn_stocks hres hu hn
  | cancelSale saleId =>
    simp only [applyOp]
    cases hres : cancelSale db saleId with
    | error e => exact ⟨hu, hn⟩
    | ok pair =>
      cases pair with
      | mk res db1 => exact cancelSale_stocks hres hu hn

instance (stocks : List StockRec) : Decidable (StocksNonneg stocks) :=
  inferInstanceAs (Decidable (∀ s ∈ stocks, 0 ≤ s.quantity))

instance (stocks : List StockRec) : Decidable (StocksUnique stocks) :=
  inferInstanceAs (Decidable (List.Nodup _))

instance (db : DB) : Decidable (StockNonneg db) :=
  inferInstanceAs (Decidable (StocksNonneg db.stocks))

instance (db : DB) : Decidable (StockUnique db) :=
  inferInstanceAs (Decidable (StocksUnique db.stocks))

instance : (op : Op) → Decidable (GoodOp op)
  | .createPurchase _ => inferInstanceAs (Decidable True)
  | .createSale _ => inferInstanceAs (Decidable (List.Nodup _))
  | .addItemToSale _ _ _ _ => inferInstanceAs (Decidable True)
  | .removeItemFromSale _ _ => inferInstanceAs (Decidable True)
  | .addItemToPurchase _ _ _ _ => inferInstanceAs (Decidable True)
  | .removeItemFromPurchase _ _ => inferInstanceAs (Decidable False)
  | .createReturn _ => inferInstanceAs (Decidable True)
  | .cancelSale _ => inferInstanceAs (Decidable True)

/-- A state with four units of product 1 at branch 1 and nothing else. -/
def dbC1 : DB :=
  { stocks := [⟨1, 1, 4⟩], sales := [], saleItems := [], saleReturns := [],
    purchases := [], purchaseItems := [], loyalties := [], inventoryLogs := [],
    nextId := 100 }

/-- A createSale request whose two line items name the same product: the
validation loop checks each of them against the same undecremented row. -/
def saleInpC1 : CreateSaleInput :=
  { branchId := 1, customerId := none, invoiceNo := "INV-DUP", discount := 0,
    tax := 0, items := [⟨1, 3, 5, 15⟩, ⟨1, 3, 5, 15⟩] }

/-- Claim C1, counterexample: starting from stock quantity 4 (all quantities
non-negative, one row per pair), a single createSale whose items list holds
the same product twice with quantity 3 each passes validation (both checks
read quantity 4 before any decrement) and drives the stock row to -2, so the
claimed invariant fails after a sequence of the listed core operations. -/
theorem stockNonneg_violated_by_duplicate_item_sale :
    StockNonneg dbC1 ∧ StockUnique dbC1 ∧
    ¬ StockNonneg (runOps dbC1 [Op.createSale saleInpC1]) := by
  decide

/-- Claim C1 (amended): for every (product, branch) pair the Stock Ledger
quantity stays >= 0 after any sequence of the core operations, starting from
a state where all quantities are >= 0 and each pair has at most one stock
row, PROVIDED the sequence contains no removeItemFromPurchase call (the code
decrements stock there with no non-negativity check) and every createSale
call's line items carry pairwise-distinct productIds (a repeated product is
validated twice against the same undecremented row and then decremented
twice). -/
theorem stockNonneg_preserved_by_core_ops_amended (db : DB) (ops : List Op)
    (hu : StockUnique db) (hn : StockNonneg db)
    (hg : ∀ op ∈ ops, GoodOp op) : StockNonneg (runOps db ops) := by
  induction ops generalizing db with
  | nil => exact hn
  | cons op rest ih =>
    have h1 := applyOp_good hu hn (hg op (List.mem_cons_self _ _))
    exact ih (applyOp db op) h1.1 h1.2
      (fun o ho => hg o (List.mem_cons_of_mem _ ho))

/-- A concrete state for the amended-claim witness. -/
def dbC1w : DB :=
  { stocks := [⟨1, 1, 5⟩], sales := [], saleItems := [], saleReturns := [],
    purchases := [], purchaseItems := [], loyalties := [], inventoryLogs := [],
    nextId := 50 }

/-- A concrete good operation sequence: one purchase then one sale. -/
def opsC1w : List Op :=
  [Op.createPurchase ⟨7, 1, "PINV-1", 0, 0, [⟨2, 4, 3, 12⟩]⟩,
   Op.createSale ⟨1, none, "INV-9", 0, 0, [⟨1, 5, 10, 50⟩]⟩]

/-- Witness for the amended claim C1 at a concrete state and sequence. -/
theorem stockNonneg_preserved_by_core_ops_amended_witness :
    StockUnique dbC1w ∧ StockNonneg dbC1w ∧ (∀ op ∈ opsC1w, GoodOp op) ∧
    StockNonneg (runOps dbC1w opsC1w) :=
  ⟨by decide, by decide, by decide,
    stockNonneg_preserved_by_core_ops_amended dbC1w opsC1w (by decide)
      (by decide) (by decide)⟩

/-- The quantity the code treats as available: the stock row's quantity, or
zero when the row is absent (stock?.quantity || 0). -/
def stockQuantity (stocks : List StockRec) (p b : Nat) : Int :=
  match findStock stocks p b with
  | none => 0
  | some s => s.quantity

lemma checkStockItems_error {stocks : List StockRec} {branchId : Nat} :
    ∀ {items : List SaleItemInput},
      (∃ item ∈ items,
        stockQuantity stocks item.productId branchId < (item.quantity : Int)) →
      ∃ p a r, checkStockItems stocks branchId items
        = .error (.insufficientStock p a r) := by
  intro items
  induction items with
  | nil =>
    intro h
    simp at h
  | cons a rest ih =>
    intro h
    cases hf : findStock stocks a.productId branchId with
    | none =>
      refine ⟨a.productId, 0, a.quantity, ?_⟩
      simp only [checkStockItems, hf]
    | some s =>
      by_cases hq : s.quantity < (a.quantity : Int)
      · refine ⟨a.productId, s.quantity, a.quantity, ?_⟩
        simp only [checkStockItems, hf, if_pos hq]
      · obtain ⟨item, hmem, hlt⟩ := h
        rcases List.mem_cons.mp hmem with rfl | hmem'
        · exfalso
          apply hq
          unfold stockQuantity at hlt
          rw [hf] at hlt
          exact hlt
        · obtain ⟨p, av, r, herr⟩ := ih ⟨item, hmem', hlt⟩
          refine ⟨p, av, r, ?_⟩
          simp only [checkStockItems, hf, if_neg hq]
          exact herr

/-- Claim C2: whenever some line item of a createSale request asks for more
than the available stock at (productId, branchId) (a missing row counting as
zero), the whole call fails with the insufficient-stock error and the state
is completely unchanged: no SaleHeader row and no stock decrement (the
validation loop runs before any write, inside the rolled-back transaction). -/
theorem createSale_insufficientStock_no_partial_commit (db : DB)
    (inp : CreateSaleInput)
    (h : ∃ item ∈ inp.items,
      stockQuantity db.stocks item.productId inp.branchId
        < (item.quantity : Int)) :
    (∃ p a r, createSale db inp = .error (.insufficientStock p a r)) ∧
    applyOp db (Op.createSale inp) = db := by
  obtain ⟨p, av, r, hchk⟩ := checkStockItems_error h
  have herr : createSale db inp = .error (.insufficientStock p av r) := by
    simp only [createSale]
    rw [hchk]
  refine ⟨⟨p, av, r, herr⟩, ?_⟩
  simp only [applyOp, herr]

/-- A concrete state with a single unit of product 1 at branch 1. -/
def dbC2 : DB :=
  { stocks := [⟨1, 1, 1⟩], sales := [], saleItems := [], saleReturns := [],
    purchases := [], purchaseItems := [], loyalties := [], inventoryLogs := [],
    nextId := 10 }

/-- A createSale request for two units when only one is on hand. -/
def saleInpC2 : CreateSaleInput :=
  { branchId := 1, customerId := none, invoiceNo := "INV-2", discount := 0,
    tax := 0, items := [⟨1, 2, 5, 10⟩] }

/-- Witness for claim C2 at a concrete over-requesting sale. -/
theorem createSale_insufficientStock_no_partial_commit_witness :
    (∃ item ∈ saleInpC2.items,
      stockQuantity dbC2.stocks item.productId saleInpC2.branchId
        < (item.quantity : Int)) ∧
    ((∃ p a r, createSale dbC2 saleInpC2 = .error (.insufficientStock p a r)) ∧
      applyOp dbC2 (Op.createSale saleInpC2) = dbC2) :=
  ⟨by decide,
    createSale_insufficientStock_no_partial_commit dbC2 saleInpC2 (by decide)⟩

/-- A concrete state with five units of product 1 at branch 1. -/
def dbC3 : DB :=
  { stocks := [⟨1, 1, 5⟩], sales := [], saleItems := [], saleReturns := [],
    purchases := [], purchaseItems := [], loyalties := [], inventoryLogs := [],
    nextId := 7 }

/-- A one-line-item createSale request (product 1, quantity 2, price 10). -/
def saleInpC3 : CreateSaleInput :=
  { branchId := 1, customerId := none, invoiceNo := "INV-100", discount := 0,
    tax := 0, items := [⟨1, 2, 10, 20⟩] }

/-- The header the code persists for saleInpC3. -/
def saleC3 : SaleRec :=
  { id := 7, branchId := 1, customerId := none, invoiceNo := "INV-100",
    totalAmount := 20, discount := 0, tax := 0, grandTotal := 20,
    paidAmount := 20, dueAmount := 0, status := SaleStatus.COMPLETED }

/-- The full state the code leaves behind: header stored and stock
decremented, but saleItems and inventoryLogs still empty. -/
def dbC3' : DB :=
  { stocks := [⟨1, 1, 3⟩], sales := [saleC3], saleItems := [],
    saleReturns := [], purchases := [], purchaseItems := [], loyalties := [],
    inventoryLogs := [], nextId := 8 }

/-- Claim C3, evidence of the divergence: this successful createSale persists
the SaleHeader and decrements stock by the item quantity, but writes ZERO
SaleItem rows and ZERO InventoryLog entries — the saleItems: { create: ... }
block and the inventoryLog.create block are commented out in
SaleService.create, even though the method's include clause returns
saleItems and the cancellation path reads them to restore stock. -/
theorem createSale_persists_no_line_items_or_logs :
    createSale dbC3 saleInpC3 = .ok (saleC3, dbC3') ∧
    dbC3'.saleItems = [] ∧ dbC3'.inventoryLogs = [] ∧
    dbC3'.sales = [saleC3] ∧ dbC3'.stocks = [⟨1, 1, 3⟩] :=
  ⟨rfl, rfl, rfl, rfl, rfl⟩

/-- Claim C10: every successfully created sale is recorded as fully paid —
the persisted header always has paidAmount = grandTotal and dueAmount = 0
(the source hard-codes paidAmount: grandTotal, dueAmount: 0 with the comment
"Assuming full payment for now"), regardless of items, discount, tax or
payment method. -/
theorem createSale_always_fully_paid (db : DB) (inp : CreateSaleInput)
    (sale : SaleRec) (db' : DB) (h : createSale db inp = .ok (sale, db')) :
    sale.paidAmount = sale.grandTotal ∧ sale.dueAmount = 0 ∧
    sale ∈ db'.sales := by
  simp only [createSale] at h
  cases hchk : checkStockItems db.stocks inp.branchId inp.items with
  | error e =>
    rw [hchk] at h
    exact Except.noConfusion h
  | ok u =>
    cases u
    rw [hchk] at h
    by_cases hdup : (db.sales.any (fun s => s.invoiceNo == inp.invoiceNo)) = true
    · rw [if_pos hdup] at h
      exact Except.noConfusion h
    · rw [if_neg hdup] at h
      cases hdec : decStockItems inp.branchId db.stocks inp.items with
      | error e =>
        rw [hdec] at h
        exact Except.noConfusion h
      | ok stocks2 =>
        rw [hdec] at h
        rw [Except.ok.injEq, Prod.mk.injEq] at h
        obtain ⟨h1, h2⟩ := h
        subst h1
        subst h2
        refine ⟨rfl, rfl, ?_⟩
        show _ ∈ db.sales ++ [_]
        exact List.mem_append_right _ (List.mem_singleton.mpr rfl)

/-- Witness for claim C10 at the concrete sale of dbC3. -/
theorem createSale_always_fully_paid_witness :
    createSale dbC3 saleInpC3 = .ok (saleC3, dbC3') ∧
    (saleC3.paidAmount = saleC3.grandTotal ∧ saleC3.dueAmount = 0 ∧
      saleC3 ∈ dbC3'.sales) :=
  ⟨rfl, createSale_always_fully_paid dbC3 saleInpC3 saleC3 dbC3' rfl⟩

/-- An empty state for the purchase-total claims. -/
def dbC9 : DB :=
  { stocks := [], sales := [], saleItems := [], saleReturns := [],
    purchases := [], purchaseItems := [], loyalties := [], inventoryLogs := [],
    nextId := 1 }

/-- A purchase whose single line item claims total 100 while
quantity * unitCost = 1 * 1 = 1: the service never recomputes. -/
def purchInpC9 : CreatePurchaseInput :=
  { supplierId := 1, branchId := 1, invoiceNo := "P-1", discount := 0,
    tax := 0, items := [⟨1, 1, 1, 100⟩] }

/-- Claim C9, counterexample: createPurchase sums the caller-supplied
item.total fields, so the persisted totalAmount is 100 although the sum of
quantity * unitCost over line items is 1 — the claimed formula fails. -/
theorem createPurchase_totalAmount_not_qty_times_cost :
    ((createPurchase dbC9 purchInpC9).toOption.map
      (fun r => r.1.totalAmount)) = some 100 ∧
    (purchInpC9.items.map
      (fun i => (i.quantity : Int) * i.unitCost)).sum = 1 ∧
    (100 : Int) ≠ 1 := by
  refine ⟨rfl, rfl, by decide⟩

/-- Claim C9 (amended): the persisted PurchaseHeader has totalAmount equal to
the sum of the caller-supplied line-item total fields (which the service
trusts; quantity * unitCost is never recomputed), and
grandTotal = totalAmount - discount + tax. -/
theorem createPurchase_totals_amended (db : DB) (inp : CreatePurchaseInput)
    (purchase : PurchaseRec) (db' : DB)
    (h : createPurchase db inp = .ok (purchase, db')) :
    purchase.totalAmount = (inp.items.map (fun i => i.total)).sum ∧
    purchase.grandTotal = purchase.totalAmount - inp.discount + inp.tax ∧
    purchase ∈ db'.purchases := by
  simp only [createPurchase] at h
  by_cases hdup : (db.purchases.any (fun p => p.invoiceNo == inp.invoiceNo)) = true
  · rw [if_pos hdup] at h
    exact Except.noConfusion h
  · rw [if_neg hdup] at h
    rw [Except.ok.injEq, Prod.mk.injEq] at h
    obtain ⟨h1, h2⟩ := h
    subst h1
    subst h2
    refine ⟨rfl, rfl, ?_⟩
    show _ ∈ db.purchases ++ [_]
    exact List.mem_append_right _ (List.mem_singleton.mpr rfl)

/-- The header the code persists for purchInpC9. -/
def purchC9 : PurchaseRec :=
  { id := 1, supplierId := 1, branchId := 1, invoiceNo := "P-1",
    totalAmount := 100, discount := 0, tax := 0, grandTotal := 100 }

/-- Witness for the amended claim C9 at the concrete purchase. -/
theorem createPurchase_totals_amended_witness :
    ((createPurchase dbC9 purchInpC9).toOption.map (fun r => r.1))
      = some purchC9 ∧
    (purchC9.totalAmount = (purchInpC9.items.map (fun i => i.total)).sum ∧
      purchC9.grandTotal = purchC9.totalAmount - purchInpC9.discount
        + purchInpC9.tax) :=
  ⟨rfl,
    let h := createPurchase_totals_amended dbC9 purchInpC9 purchC9
      { stocks := [⟨1, 1, 1⟩], sales := [], saleItems := [], saleReturns := [],
        purchases := [purchC9], purchaseItems := [], loyalties := [],
        inventoryLogs := [], nextId := 2 } rfl
    ⟨h.1, h.2.1⟩⟩

/-- A persisted sale whose grandTotal is zero (possible since createSale
accepts an empty items list or discount = itemsTotal). -/
def saleC8z : SaleRec :=
  { id := 1, branchId := 1, customerId := none, invoiceNo := "Z-1",
    totalAmount := 0, discount := 0, tax := 0, grandTotal := 0,
    paidAmount := 0, dueAmount := 0, status := SaleStatus.PENDING }

/-- A state holding only saleC8z. -/
def dbC8z : DB :=
  { stocks := [], sales := [saleC8z], saleItems := [], saleReturns := [],
    purchases := [], purchaseItems := [], loyalties := [], inventoryLogs := [],
    nextId := 2 }

/-- Claim C8, counterexample: on a sale with grandTotal = 0,
updatePayment(saleId, 0) is a valid payment (0 <= 0 <= 0) and the code sets
status COMPLETED (the dueAmount == 0 branch wins), not PENDING as the
claim's "pending when paidAmount == 0" requires. -/
theorem updatePayment_zero_total_completed_not_pending :
    ((updatePayment dbC8z 1 0).toOption.map (fun r => r.1.status))
      = some SaleStatus.COMPLETED ∧
    SaleStatus.COMPLETED ≠ SaleStatus.PENDING :=
  ⟨rfl, by decide⟩

/-- Claim C8 (amended): updatePayment fails with the invalid-payment error
exactly when paidAmount < 0 or paidAmount > grandTotal (leaving the sale
unchanged, since the error is thrown before the update); otherwise it sets
dueAmount = grandTotal - paidAmount and the status is completed exactly when
dueAmount = 0, partial exactly when 0 < paidAmount < grandTotal, and pending
exactly when paidAmount = 0 AND grandTotal > 0 — when grandTotal = 0 a zero
payment yields dueAmount 0 and status completed, not pending. -/
theorem updatePayment_amended (db : DB) (id : Nat) (paid : Int)
    (sale : SaleRec) (hfind : findSale db id = some sale) :
    (updatePayment db id paid = .error .invalidPayment ↔
      (paid < 0 ∨ sale.grandTotal < paid)) ∧
    (0 ≤ paid → paid ≤ sale.grandTotal →
      ∃ sale' db', updatePayment db id paid = .ok (sale', db') ∧
        sale'.paidAmount = paid ∧
        sale'.dueAmount = sale.grandTotal - paid ∧
        (sale'.status = SaleStatus.COMPLETED ↔ sale.grandTotal - paid = 0) ∧
        (sale'.status = SaleStatus.PARTIAL ↔
          (0 < paid ∧ paid < sale.grandTotal)) ∧
        (sale'.status = SaleStatus.PENDING ↔
          (paid = 0 ∧ 0 < sale.grandTotal))) := by
  simp only [updatePayment, hfind]
  by_cases hbad : paid < 0 ∨ sale.grandTotal < paid
  · rw [if_pos hbad]
    refine ⟨⟨fun _ => hbad, fun _ => rfl⟩, ?_⟩
    intro h0 hle
    exact absurd hbad (by omega)
  · rw [if_neg hbad]
    constructor
    · constructor
      · intro hcon
        exact Except.noConfusion hcon
      · intro hc
        exact absurd hc hbad
    · intro h0 hle
      refine ⟨_, _, rfl, rfl, rfl, ?_, ?_, ?_⟩
      · show (if sale.grandTotal - paid = 0 then SaleStatus.COMPLETED
          else if 0 < paid then SaleStatus.PARTIAL else SaleStatus.PENDING)
            = SaleStatus.COMPLETED ↔ sale.grandTotal - paid = 0
        split_ifs with h1 h2
        · exact ⟨fun _ => h1, fun _ => rfl⟩
        · exact ⟨fun hc => absurd hc (by decide), fun hc => absurd hc h1⟩
        · exact ⟨fun hc => absurd hc (by decide), fun hc => absurd hc h1⟩
      · show (if sale.grandTotal - paid = 0 then SaleStatus.COMPLETED
          else if 0 < paid then SaleStatus.PARTIAL else SaleStatus.PENDING)
            = SaleStatus.PARTIAL ↔ (0 < paid ∧ paid < sale.grandTotal)
        split_ifs with h1 h2
        · constructor
          · intro hc
            exact absurd hc (by decide)
          · rintro ⟨-, hpg⟩
            exact absurd hpg (by omega)
        · constructor
          · intro _
            exact ⟨h2, by omega⟩
          · intro _
            rfl
        · constructor
          · intro hc
            exact absurd hc (by decide)
          · rintro ⟨hp, -⟩
            exact absurd hp h2
      · show (if sale.grandTotal - paid = 0 then SaleStatus.COMPLETED
          else if 0 < paid then SaleStatus.PARTIAL else SaleStatus.PENDING)
            = SaleStatus.PENDING ↔ (paid = 0 ∧ 0 < sale.grandTotal)
        split_ifs with h1 h2
        · constructor
          · intro hc
            exact absurd hc (by decide)
          · rintro ⟨hp0, hg⟩
            exact absurd hg (by omega)
        · constructor
          · intro hc
            exact absurd hc (by decide)
          · rintro ⟨hp0, -⟩
            exact absurd h2 (by omega)
        · constructor
          · intro _
            exact ⟨by omega, by omega⟩
          · intro _
            rfl

/-- A persisted sale with grandTotal 10 for the amended-claim witness. -/
def saleC8w : SaleRec :=
  { id := 3, branchId := 1, customerId := none, invoiceNo := "W-1",
    totalAmount := 10, discount := 0, tax := 0, grandTotal := 10,
    paidAmount := 10, dueAmount := 0, status := SaleStatus.COMPLETED }

/-- A state holding only saleC8w. -/
def dbC8w : DB :=
  { stocks := [], sales := [saleC8w], saleItems := [], saleReturns := [],
    purchases := [], purchaseItems := [], loyalties := [], inventoryLogs := [],
    nextId := 4 }

/-- Witness for the amended claim C8 at a concrete partial payment. -/
theorem updatePayment_amended_witness :
    findSale dbC8w 3 = some saleC8w ∧
    ((updatePayment dbC8w 3 4 = .error .invalidPayment ↔
      ((4 : Int) < 0 ∨ saleC8w.grandTotal < 4)) ∧
    (0 ≤ (4 : Int) → (4 : Int) ≤ saleC8w.grandTotal →
      ∃ sale' db', updatePayment dbC8w 3 4 = .ok (sale', db') ∧
        sale'.paidAmount = 4 ∧
        sale'.dueAmount = saleC8w.grandTotal - 4 ∧
        (sale'.status = SaleStatus.COMPLETED ↔ saleC8w.grandTotal - 4 = 0) ∧
        (sale'.status = SaleStatus.PARTIAL ↔
          (0 < (4 : Int) ∧ (4 : Int) < saleC8w.grandTotal)) ∧
        (sale'.status = SaleStatus.PENDING ↔
          ((4 : Int) = 0 ∧ 0 < saleC8w.grandTotal)))) :=
  ⟨rfl, updatePayment_amended dbC8w 3 4 saleC8w rfl⟩

/-- Scenario C sale header: one line item of 10 units at 20.00. -/
def saleC4 : SaleRec :=
  { id := 1, branchId := 1, customerId := none, invoiceNo := "S-C",
    totalAmount := 200, discount := 0, tax := 0, grandTotal := 200,
    paidAmount := 200, dueAmount := 0, status := SaleStatus.COMPLETED }

/-- Scenario C line item (productId 7, quantity 10, unitPrice 20). -/
def itemC4 : SaleItemRec :=
  { id := 2, saleId := 1, productId := 7, quantity := 10, unitPrice := 20,
    subtotal := 200 }

/-- A prior approved (non-rejected) return of 4 units on the same line. -/
def retC4 : SaleReturnRec :=
  { id := 3, saleId := 1, productId := 7, quantity := 4, refundAmount := 80,
    status := ReturnStatus.APPROVED }

/-- The Scenario C state: the sale, its line item and the prior return. -/
def dbC4 : DB :=
  { stocks := [⟨7, 1, 0⟩], sales := [saleC4], saleItems := [itemC4],
    saleReturns := [retC4], purchases := [], purchaseItems := [],
    loyalties := [], inventoryLogs := [], nextId := 5 }

/-- Claim C4, evidence of the divergence: with 10 sold and 4 already returned
(non-rejected), a second return of 7 units (refund 140 = 7 x 20, in bounds)
must fail with the return-exceeds-quantity error per the claim, since
7 > 10 - 4; the code accepts it, because SaleReturnService.create checks
only quantity <= saleItem.quantity and never reads prior returns —
contradicting its own validateReturn helper and the spec's Scenario C. -/
theorem createReturn_accepts_overreturn :
    itemC4.quantity = 10 ∧ retC4.quantity = 4 ∧
    retC4.status ≠ ReturnStatus.REJECTED ∧
    itemC4.quantity - retC4.quantity < 7 ∧
    ((createReturn dbC4 ⟨1, 7, 7, 140⟩).toOption.map
      (fun r => (r.1.quantity, r.1.saleId, r.1.productId))) = some (7, 1, 7) :=
  ⟨rfl, rfl, by decide, by decide, rfl⟩

/-- Claim C5, counterexample: on the Scenario C state, validateReturn(1,7,7)
reports isValid = false (7 > 10 - 4) while createReturn with the same
arguments and an in-bounds refund (140 <= 7 x 20) succeeds — the two do NOT
use logically identical eligibility arithmetic. -/
theorem validateReturn_create_guard_drift :
    ((validateReturn dbC4 1 7 7).toOption.map (fun r => r.isValid))
      = some false ∧
    (140 : Int) ≤ 20 * 7 ∧
    ((createReturn dbC4 ⟨1, 7, 7, 140⟩).toOption.map (fun r => r.1.quantity))
      = some 7 :=
  ⟨rfl, by decide, rfl⟩

/-- Claim C5 (amended): the implication holds in one direction only — when
validateReturn reports isValid = true, a createReturn call with the same
saleId, productId and quantity and an in-bounds refundAmount passes every
guard and succeeds; the converse fails, because createReturn checks only
quantity <= soldQuantity and ignores prior returns. -/
theorem validateReturn_isValid_implies_create_ok (db : DB)
    (saleId productId quantity : Nat) (refund : Int) (v : ReturnValidation)
    (hv : validateReturn db saleId productId quantity = .ok v)
    (hvalid : v.isValid = true) (hrefund : refund ≤ v.maxRefundAmount) :
    ∃ r db', createReturn db ⟨saleId, productId, quantity, refund⟩
      = .ok (r, db') := by
  simp only [validateReturn] at hv
  cases hs : findSale db saleId with
  | none =>
    rw [hs] at hv
    exact Except.noConfusion hv
  | some sale =>
    simp only [hs] at hv
    cases hi : findSaleItemOfSale db saleId productId with
    | none =>
      simp only [hi] at hv
      exact Except.noConfusion hv
    | some saleItem =>
      simp only [hi] at hv
      rw [Except.ok.injEq] at hv
      subst hv
      have har : (0 : Int) ≤ ((db.saleReturns.filter
          (fun r => r.saleId == saleId && r.productId == productId)).map
            (fun r => (r.quantity : Int))).sum := by
        apply List.sum_nonneg
        intro x hx
        rcases List.mem_map.mp hx with ⟨r, -, rfl⟩
        positivity
      have hq : (quantity : Int) ≤ (saleItem.quantity : Int)
          - ((db.saleReturns.filter
            (fun r => r.saleId == saleId && r.productId == productId)).map
              (fun r => (r.quantity : Int))).sum :=
        of_decide_eq_true hvalid
      simp only [createReturn, hs, hi]
      rw [if_neg (by omega : ¬ saleItem.quantity < quantity)]
      rw [if_neg (not_lt.mpr hrefund :
        ¬ saleItem.unitPrice * (quantity : Int) < refund)]
      exact ⟨_, _, rfl⟩

/-- A return-free copy of the Scenario C state for the amended-claim
witness. -/
def dbC5w : DB :=
  { stocks := [], sales := [saleC4], saleItems := [itemC4], saleReturns := [],
    purchases := [], purchaseItems := [], loyalties := [], inventoryLogs := [],
    nextId := 5 }

/-- What validateReturn computes on dbC5w for quantity 4. -/
def vC5w : ReturnValidation :=
  { isValid := true, availableToReturn := 10, alreadyReturned := 0,
    soldQuantity := 10, unitPrice := 20, maxRefundAmount := 80 }

/-- Witness for the amended claim C5 at a concrete in-bounds return. -/
theorem validateReturn_isValid_implies_create_ok_witness :
    validateReturn dbC5w 1 7 4 = .ok vC5w ∧ vC5w.isValid = true ∧
    (80 : Int) ≤ vC5w.maxRefundAmount ∧
    (∃ r db', createReturn dbC5w ⟨1, 7, 4, 80⟩ = .ok (r, db')) :=
  ⟨rfl, rfl, by decide,
    validateReturn_isValid_implies_create_ok dbC5w 1 7 4 80 vC5w rfl rfl
      (by decide)⟩

lemma findCustomer_cons (t : LoyaltyRec) (rest : List LoyaltyRec) (cid : Nat) :
    (t :: rest).find? (fun l => l.customerId == cid) =
      if (t.customerId == cid) = true then some t
      else rest.find? (fun l => l.customerId == cid) := by
  rw [List.find?_cons]
  by_cases hc : (t.customerId == cid) = true
  · simp only [hc, if_true]
  · simp only [Bool.not_eq_true] at hc
    simp only [hc, if_false]
    simp

lemma find?_replace_ne {ls : List LoyaltyRec} {c cid : Nat}
    {f : LoyaltyRec → LoyaltyRec}
    (hf : ∀ l, (f l).customerId = l.customerId) (hne : cid ≠ c) :
    (ls.map (fun l => if l.customerId == c then f l else l)).find?
      (fun l => l.customerId == cid)
    = ls.find? (fun l => l.customerId == cid) := by
  induction ls with
  | nil => rfl
  | cons t rest ih =>
    simp only [List.map_cons]
    by_cases hct : (t.customerId == c) = true
    · have h1 : t.customerId = c := by simpa using hct
      have h3 : ¬ (t.customerId == cid) = true := by
        simp only [beq_iff_eq, h1]
        exact Ne.symm hne
      have h2 : ¬ ((f t).customerId == cid) = true := by
        rw [hf t]
        exact h3
      rw [if_pos hct, findCustomer_cons, findCustomer_cons, if_neg h2,
        if_neg h3]
      exact ih
    · rw [if_neg hct, findCustomer_cons, findCustomer_cons]
      by_cases hcid : (t.customerId == cid) = true
      · rw [if_pos hcid, if_pos hcid]
      · rw [if_neg hcid, if_neg hcid]
        exact ih

lemma find?_replace_eq {ls : List LoyaltyRec} {c : Nat}
    {f : LoyaltyRec → LoyaltyRec}
    (hf : ∀ l, (f l).customerId = l.customerId) :
    (ls.map (fun l => if l.customerId == c then f l else l)).find?
      (fun l => l.customerId == c)
    = Option.map f (ls.find? (fun l => l.customerId == c)) := by
  induction ls with
  | nil => rfl
  | cons t rest ih =>
    simp only [List.map_cons]
    by_cases hct : (t.customerId == c) = true
    · have h2 : ((f t).customerId == c) = true := by
        rw [hf t]
        exact hct
      rw [if_pos hct, findCustomer_cons, findCustomer_cons, if_pos h2,
        if_pos hct]
      rfl
    · rw [if_neg hct, findCustomer_cons, findCustomer_cons, if_neg hct,
        if_neg hct]
      exact ih

lemma findLoyalty_replace_eq {db : DB} {c : Nat} {f : LoyaltyRec → LoyaltyRec}
    (hf : ∀ l, (f l).customerId = l.customerId) :
    findLoyalty (replaceLoyalty db c f) c
      = Option.map f (findLoyalty db c) := by
  simp only [findLoyalty, replaceLoyalty]
  exact find?_replace_eq hf

lemma findLoyalty_replace_ne {db : DB} {c cid : Nat}
    {f : LoyaltyRec → LoyaltyRec}
    (hf : ∀ l, (f l).customerId = l.customerId) (hne : cid ≠ c) :
    findLoyalty (replaceLoyalty db c f) cid = findLoyalty db cid := by
  simp only [findLoyalty, replaceLoyalty]
  exact find?_replace_ne hf hne

lemma find?_append_loyalty (ls : List LoyaltyRec) (new : LoyaltyRec)
    (cid : Nat) :
    (ls ++ [new]).find? (fun l => l.customerId == cid) =
      match ls.find? (fun l => l.customerId == cid) with
      | some l => some l
      | none => if (new.customerId == cid) = true then some new else none := by
  induction ls with
  | nil =>
    simp only [List.nil_append]
    rw [findCustomer_cons]
    rfl
  | cons t rest ih =>
    simp only [List.cons_append]
    rw [findCustomer_cons, findCustomer_cons]
    by_cases hct : (t.customerId == cid) = true
    · rw [if_pos hct, if_pos hct]
    · rw [if_neg hct, if_neg hct]
      exact ih

/-- The Loyalty Ledger invariant at a single customer: the account row, when
it exists, satisfies pointsBalance = totalEarned - totalRedeemed. -/
def AccountInv (db : DB) (customerId : Nat) : Prop :=
  match findLoyalty db customerId with
  | none => True
  | some l => l.pointsBalance = l.totalEarned - l.totalRedeemed

instance (db : DB) (cid : Nat) : Decidable (AccountInv db cid) := by
  unfold AccountInv
  cases findLoyalty db cid with
  | none => exact inferInstanceAs (Decidable True)
  | some l => exact inferInstanceAs (Decidable (_ = _))

lemma accountInv_some {db : DB} {cid : Nat} {l : LoyaltyRec}
    (h : AccountInv db cid) (hf : findLoyalty db cid = some l) :
    l.pointsBalance = l.totalEarned - l.totalRedeemed := by
  unfold AccountInv at h
  rw [hf] at h
  exact h

lemma accountInv_intro {db : DB} {cid : Nat}
    (h : ∀ l, findLoyalty db cid = some l →
      l.pointsBalance = l.totalEarned - l.totalRedeemed) :
    AccountInv db cid := by
  unfold AccountInv
  cases hf : findLoyalty db cid with
  | none => trivial
  | some l => exact h l hf

lemma accountInv_replace {db : DB} {c cid : Nat} {f : LoyaltyRec → LoyaltyRec}
    (hf : ∀ l, (f l).customerId = l.customerId)
    (hbal : ∀ l, findLoyalty db c = some l →
      l.pointsBalance = l.totalEarned - l.totalRedeemed →
      (f l).pointsBalance = (f l).totalEarned - (f l).totalRedeemed)
    (h : AccountInv db cid) : AccountInv (replaceLoyalty db c f) cid := by
  apply accountInv_intro
  intro l' hfind'
  by_cases hc : cid = c
  · subst hc
    rw [findLoyalty_replace_eq hf] at hfind'
    cases hfl : findLoyalty db cid with
    | none =>
      rw [hfl] at hfind'
      exact Option.noConfusion hfind'
    | some l =>
      rw [hfl] at hfind'
      have hl := accountInv_some h hfl
      have heq : f l = l' := Option.some.inj hfind'
      rw [← heq]
      exact hbal l hfl hl
  · rw [findLoyalty_replace_ne hf hc] at hfind'
    exact accountInv_some h hfind'

lemma accountInv_append_zero {db : DB} {c cid : Nat} (h : AccountInv db cid) :
    AccountInv { db with loyalties := db.loyalties ++ [⟨c, 0, 0, 0⟩] } cid := by
  apply accountInv_intro
  intro l' hfind'
  simp only [findLoyalty] at hfind'
  rw [find?_append_loyalty] at hfind'
  cases hfl : findLoyalty db cid with
  | some l =>
    unfold findLoyalty at hfl
    rw [hfl] at hfind'
    have : l = l' := Option.some.inj hfind'
    rw [← this]
    exact accountInv_some h hfl
  | none =>
    unfold findLoyalty at hfl
    rw [hfl] at hfind'
    by_cases hcc : ((⟨c, 0, 0, 0⟩ : LoyaltyRec).customerId == cid) = true
    · rw [if_pos hcc] at hfind'
      have : (⟨c, 0, 0, 0⟩ : LoyaltyRec) = l' := Option.some.inj hfind'
      rw [← this]
      rfl
    · rw [if_neg hcc] at hfind'
      exact Option.noConfusion hfind'

/-- Claim C6: for every customer whose loyalty account satisfies
pointsBalance = totalEarned - totalRedeemed, the equation still holds after
any single loyalty operation (addPoints, redeemPoints, adjustPoints with any
signed value, resetAccount, processSalePoints), whether the operation
succeeds or fails: each write moves the delta into totalEarned or
totalRedeemed, and failures leave the state untouched. -/
theorem loyalty_balance_equation_preserved (db : DB) (op : LoyaltyOp)
    (cid : Nat) (h : AccountInv db cid) :
    AccountInv (applyLoyaltyOp db op) cid := by
  cases op with
  | addPoints c points =>
    simp only [applyLoyaltyOp, addPoints]
    by_cases hp : points ≤ 0
    · rw [if_pos hp]
      exact h
    · rw [if_neg hp]
      cases hfl : findLoyalty db c with
      | none =>
        simp only [hfl]
        exact h
      | some l =>
        simp only [hfl]
        exact accountInv_replace (fun x => rfl)
          (fun x _ hx => by
            show x.pointsBalance + points
              = (x.totalEarned + points) - x.totalRedeemed
            omega) h
  | redeemPoints c points =>
    simp only [applyLoyaltyOp, redeemPoints]
    by_cases hp : points ≤ 0
    · rw [if_pos hp]
      exact h
    · rw [if_neg hp]
      cases hfl : findLoyalty db c with
      | none =>
        simp only [hfl]
        exact h
      | some l =>
        simp only [hfl]
        by_cases hlt : l.pointsBalance < points
        · rw [if_pos hlt]
          exact h
        · rw [if_neg hlt]
          exact accountInv_replace (fun x => rfl)
            (fun x _ hx => by
              show x.pointsBalance - points
                = x.totalEarned - (x.totalRedeemed + points)
              omega) h
  | adjustPoints c points =>
    simp only [applyLoyaltyOp, adjustPoints]
    cases hfl : findLoyalty db c with
    | none =>
      simp only [hfl]
      exact h
    | some l =>
      simp only [hfl]
      refine accountInv_replace ?_ ?_ h
      · intro x
        rfl
      intro x hx hxinv
      have hxl : x = l := by
        rw [hfl] at hx
        exact (Option.some.inj hx).symm
      subst hxl
      show x.pointsBalance + points
        = (if 0 < points then x.totalEarned + points else x.totalEarned)
          - (if points < 0 then x.totalRedeemed + (points.natAbs : Int)
             else x.totalRedeemed)
      split_ifs with h1 h2 <;> omega
  | resetAccount c =>
    simp only [applyLoyaltyOp, resetAccount]
    cases hfl : findLoyalty db c with
    | none =>
      simp only [hfl]
      exact h
    | some l =>
      simp only [hfl]
      refine accountInv_replace ?_ ?_ h
      · intro x
        rfl
      intro x hx hxinv
      have hxl : x = l := by
        rw [hfl] at hx
        exact (Option.some.inj hx).symm
      subst hxl
      show (0 : Int) = x.totalEarned - (x.totalRedeemed + x.pointsBalance)
      omega
  | processSalePoints saleId =>
    simp only [applyLoyaltyOp, processSalePoints]
    cases hsl : findSale db saleId with
    | none =>
      simp only [hsl]
      exact h
    | some sale =>
      simp only [hsl]
      cases hcust : sale.customerId with
      | none =>
        simp only [hcust]
        exact h
      | some c =>
        simp only [hcust]
        cases hfl : findLoyalty db c with
        | some l =>
          simp only [hfl]
          by_cases hpe : 0 < calculatePointsFromSale sale.grandTotal
          · rw [if_pos hpe]
            exact accountInv_replace (fun x => rfl)
              (fun x _ hx => by
                show x.pointsBalance + calculatePointsFromSale sale.grandTotal
                  = (x.totalEarned + calculatePointsFromSale sale.grandTotal)
                    - x.totalRedeemed
                omega) h
          · rw [if_neg hpe]
            exact h
        | none =>
          simp only [hfl]
          have hdb1 := accountInv_append_zero (c := c) h
          by_cases hpe : 0 < calculatePointsFromSale sale.grandTotal
          · rw [if_pos hpe]
            exact accountInv_replace (fun x => rfl)
              (fun x _ hx => by
                show x.pointsBalance + calculatePointsFromSale sale.grandTotal
                  = (x.totalEarned + calculatePointsFromSale sale.grandTotal)
                    - x.totalRedeemed
                omega) hdb1
          · rw [if_neg hpe]
            exact hdb1

/-- A state with customer 9 holding a consistent account (30 = 50 - 20). -/
def dbC6w : DB :=
  { stocks := [], sales := [], saleItems := [], saleReturns := [],
    purchases := [], purchaseItems := [], loyalties := [⟨9, 30, 50, 20⟩],
    inventoryLogs := [], nextId := 1 }

/-- Witness for claim C6 at a concrete redemption. -/
theorem loyalty_balance_equation_preserved_witness :
    AccountInv dbC6w 9 ∧
    AccountInv (applyLoyaltyOp dbC6w (LoyaltyOp.redeemPoints 9 10)) 9 :=
  ⟨by decide,
    loyalty_balance_equation_preserved dbC6w (LoyaltyOp.redeemPoints 9 10) 9
      (by decide)⟩

/-- Claim C7: for an existing loyalty account and points > 0, redeemPoints
fails with the insufficient-points error and leaves the whole state (hence
pointsBalance, totalEarned, totalRedeemed) unchanged when
pointsBalance < points; otherwise it succeeds, decrementing pointsBalance by
points and incrementing totalRedeemed by points while totalEarned stays. -/
theorem redeemPoints_spec (db : DB) (cid : Nat) (points : Int)
    (l : LoyaltyRec) (hfind : findLoyalty db cid = some l)
    (hpos : 0 < points) :
    (l.pointsBalance < points →
      redeemPoints db cid points
        = .error (.insufficientPoints l.pointsBalance points) ∧
      applyLoyaltyOp db (.redeemPoints cid points) = db) ∧
    (points ≤ l.pointsBalance →
      ∃ db', redeemPoints db cid points
          = .ok ({ l with pointsBalance := l.pointsBalance - points,
                          totalRedeemed := l.totalRedeemed + points }, db') ∧
        findLoyalty db' cid
          = some { l with pointsBalance := l.pointsBalance - points,
                          totalRedeemed := l.totalRedeemed + points }) := by
  have hnp : ¬ points ≤ 0 := by omega
  constructor
  · intro hlt
    have herr : redeemPoints db cid points
        = .error (.insufficientPoints l.pointsBalance points) := by
      simp only [redeemPoints, if_neg hnp, hfind, if_pos hlt]
    refine ⟨herr, ?_⟩
    simp only [applyLoyaltyOp, herr]
  · intro hge
    have hnlt : ¬ l.pointsBalance < points := not_lt.mpr hge
    refine ⟨replaceLoyalty db cid (fun x =>
      { x with pointsBalance := x.pointsBalance - points,
               totalRedeemed := x.totalRedeemed + points }), ?_, ?_⟩
    · simp only [redeemPoints, if_neg hnp, hfind, if_neg hnlt]
    · rw [@findLoyalty_replace_eq db cid (fun x =>
        { x with pointsBalance := x.pointsBalance - points,
                 totalRedeemed := x.totalRedeemed + points })
        (fun x => rfl), hfind]
      rfl

/-- The Scenario D account: balance 50 (70 earned, 20 redeemed). -/
def lC7 : LoyaltyRec :=
  { customerId := 9, pointsBalance := 50, totalEarned := 70,
    totalRedeemed := 20 }

/-- A state holding only the Scenario D account. -/
def dbC7 : DB :=
  { stocks := [], sales := [], saleItems := [], saleReturns := [],
    purchases := [], purchaseItems := [], loyalties := [lC7],
    inventoryLogs := [], nextId := 1 }

/-- Witness for claim C7 at Scenario D's successful redeem(50). -/
theorem redeemPoints_spec_witness :
    findLoyalty dbC7 9 = some lC7 ∧ (0 : Int) < 50 ∧
    ((lC7.pointsBalance < 50 →
      redeemPoints dbC7 9 50
        = .error (.insufficientPoints lC7.pointsBalance 50) ∧
      applyLoyaltyOp dbC7 (.redeemPoints 9 50) = dbC7) ∧
    (50 ≤ lC7.pointsBalance →
      ∃ db', redeemPoints dbC7 9 50
          = .ok ({ lC7 with pointsBalance := lC7.pointsBalance - 50,
                            totalRedeemed := lC7.totalRedeemed + 50 }, db') ∧
        findLoyalty db' 9
          = some { lC7 with pointsBalance := lC7.pointsBalance - 50,
                            totalRedeemed := lC7.totalRedeemed + 50 })) :=
  ⟨rfl, by decide, redeemPoints_spec dbC7 9 50 lC7 rfl (by decide)⟩
